import Mathlib

set_option autoImplicit false

/-!
Shallow embedding of `tag-finder.go` (Gankarloo/tag-finder-cli).

Strings are modelled as lists of characters (`Str`), Go's `strings`
helpers are re-implemented over that type, and every HTTP interaction is
modelled by passing the registry's responses in explicitly (a "server"
function, together with an explicit request log, so that statements about
how many requests a routine performs are meaningful).  Errors produced
with `fmt.Errorf` are modelled by the inductive `RegErr`, one constructor
per distinct error message in the source.
-/

abbrev Str := List Char

def strOf (s : String) : Str := s.data

/-- Go `strings.SplitN(s, sep, 2)` for a one-character separator, presented
as the two cases Go's result can have: `none` when `sep` does not occur
(Go returns the one-element slice `[s]`), `some (a, b)` when `s = a ++ sep :: b`
with `a` the part before the first occurrence. -/
def splitFirst (sep : Char) : Str → Option (Str × Str)
  | [] => none
  | c :: rest =>
    if c = sep then some ([], rest)
    else
      match splitFirst sep rest with
      | none => none
      | some (a, b) => some (c :: a, b)

/-- Go `strings.Split(s, sep)` for a one-character separator.  Always
returns a non-empty list; `Split("", sep) = [""]` as in Go. -/
def goSplit (sep : Char) : Str → List Str
  | [] => [[]]
  | c :: rest =>
    match goSplit sep rest with
    | [] => [[c]]
    | p :: ps => if c = sep then [] :: p :: ps else (c :: p) :: ps

/-- Go `strings.Contains(s, sub)` (second argument is the text searched). -/
def isSubstr (sub : Str) : Str → Bool
  | [] => sub.isEmpty
  | c :: rest => sub.isPrefixOf (c :: rest) || isSubstr sub rest

/-- Go `strings.HasSuffix`. -/
def goHasSuffix (suf s : Str) : Bool := suf.reverse.isPrefixOf s.reverse

/-- Go `unicode.IsSpace` (the Unicode White_Space code points). -/
def goIsSpace (c : Char) : Bool :=
  c.toNat = 9 || c.toNat = 10 || c.toNat = 11 || c.toNat = 12 || c.toNat = 13 ||
  c.toNat = 32 || c.toNat = 133 || c.toNat = 160 || c.toNat = 5760 ||
  (8192 ≤ c.toNat && c.toNat ≤ 8202) || c.toNat = 8232 || c.toNat = 8233 ||
  c.toNat = 8239 || c.toNat = 8287 || c.toNat = 12288

/-- Go `strings.TrimSpace`. -/
def goTrimSpace (s : Str) : Str :=
  ((s.dropWhile goIsSpace).reverse.dropWhile goIsSpace).reverse

/-- Go `strings.Trim(s, cutset)`: strip every leading and trailing
character that occurs in `cutset`. -/
def goTrimChars (cutset : Str) (s : Str) : Str :=
  ((s.dropWhile cutset.contains).reverse.dropWhile cutset.contains).reverse

/-- Go `strings.TrimPrefix`. -/
def goTrimPre (pre s : Str) : Str :=
  if pre.isPrefixOf s then s.drop pre.length else s

/-- Go `strings.Index(s, sub)`: index of the first occurrence of `sub`
in `s` (`none` models Go's `-1`). -/
def indexOfSub (sub : Str) : Str → Option Nat
  | [] => if sub.isEmpty then some 0 else none
  | c :: rest =>
    if sub.isPrefixOf (c :: rest) then some 0
    else (indexOfSub sub rest).map (· + 1)

/-- The distinct failure cases of `tag-finder.go`, one constructor per
`fmt.Errorf` call site (`outOfFuel` is an artifact of bounding the
pagination loop, which the Go source leaves unbounded). -/
inductive RegErr where
  | unsupportedAuthType
  | noRealmInAuthHeader
  | tokenRequestFailedStatus (status : Nat)
  | tokenBodyDecodeFailed
  | noChallengeOn401
  | authTokenFetchFailed (inner : RegErr)
  | registryReturnedStatus (status : Nat)
  | tagsBodyDecodeFailed
  | registryReturnedStatusForTag (status : Nat) (tag : Str)
  | noDigestHeaderForTag (tag : Str)
  | outOfFuel
deriving DecidableEq

/-- `parseImageReference` (tag-finder.go:72-98).  Returns
`(registryURL, repository, err)`. -/
def parseImageReference (image : Str) : Str × Str × Option RegErr :=
  match splitFirst '/' image with
  | none =>
    (strOf "https://registry-1.docker.io", strOf "library/" ++ image, none)
  | some (registry, repo) =>
    if registry = strOf "docker.io" then
      (strOf "https://registry-1.docker.io",
        if repo.contains '/' then repo else strOf "library/" ++ repo, none)
    else if registry = strOf "ghcr.io" then
      (strOf "https://ghcr.io", repo, none)
    else if registry = strOf "quay.io" then
      (strOf "https://quay.io", repo, none)
    else
      (strOf "https://" ++ registry, repo, none)

/-- The repository component produced by `parseImageReference`. -/
def repoOf (image : Str) : Str := (parseImageReference image).2.1

/-- The literal `rel="next"` searched for by `parseLinkHeader`. -/
def relNextToken : Str := strOf "rel=\"next\""

/-- The loop in `parseLinkHeader` over `parts[1:]`: true as soon as one
part contains `rel="next"`. -/
def findRelNext : List Str → Bool
  | [] => false
  | p :: ps => if isSubstr relNextToken p then true else findRelNext ps

/-- `parseLinkHeader` (tag-finder.go:190-212). -/
def parseLinkHeader (linkHeader : Str) : Str :=
  match goSplit ';' linkHeader with
  | p0 :: p1 :: rest =>
    let urlPart := goTrimSpace p0
    if ¬ ((strOf "<").isPrefixOf urlPart ∧ goHasSuffix (strOf ">") urlPart) then []
    else if findRelNext (p1 :: rest) then goTrimChars (strOf "<>") urlPart
    else []
  | _ => []

/-- The decoded response of the token endpoint: HTTP status, whether the
JSON body decoded, and the two fields of the decoded struct (Go's zero
value `""` models an absent field). -/
structure TokenResp where
  status : Nat
  decodeOk : Bool
  token : Str
  accessToken : Str
deriving DecidableEq

/-- The mutable state of a `RegistryClient`: the cached bearer token
(`""` means no token cached yet). -/
structure ClientState where
  token : Str
deriving DecidableEq

/-- The key/value pairs parsed from the challenge parameters of a
`WWW-Authenticate` header (tag-finder.go:133-139): split on commas, keep
the pairs that contain `=`, strip surrounding quotes from the value. -/
def authParams (p1 : Str) : List (Str × Str) :=
  (goSplit ',' p1).filterMap fun part =>
    match splitFirst '=' part with
    | some (k, v) => some (k, goTrimChars [Char.ofNat 34] v)
    | none => none

/-- Lookup in the Go map built from `authParams`: a later binding of the
same key overwrites an earlier one. -/
def lookupLast (k : Str) : List (Str × Str) → Option Str
  | [] => none
  | (k2, v) :: rest =>
    match lookupLast k rest with
    | some v2 => some v2
    | none => if k2 = k then some v else none

/-- `getBearerToken` (tag-finder.go:116-188).  `tokenWorld` maps the token
request URL to the token endpoint's response.  Returns the token together
with the updated client state (the code caches whatever token it
computed, including the empty string). -/
def getBearerToken (st : ClientState) (tokenWorld : Str → TokenResp)
    (authHeader repository : Str) : Except RegErr (Str × ClientState) :=
  if st.token ≠ [] then .ok (st.token, st)
  else
    match goSplit ' ' authHeader with
    | p0 :: p1 :: _ =>
      if p0 ≠ strOf "Bearer" then .error .unsupportedAuthType
      else
        let params := authParams p1
        match lookupLast (strOf "realm") params with
        | none => .error .noRealmInAuthHeader
        | some realm =>
          let u1 := realm ++ strOf "?"
          let u2 :=
            match lookupLast (strOf "service") params with
            | some service => u1 ++ strOf "service=" ++ service ++ strOf "&"
            | none => u1
          let tokenURL :=
            match lookupLast (strOf "scope") params with
            | some scope => u2 ++ strOf "scope=" ++ scope
            | none => u2 ++ strOf "scope=repository:" ++ repository ++ strOf ":pull"
          let resp := tokenWorld tokenURL
          if resp.status ≠ 200 then .error (.tokenRequestFailedStatus resp.status)
          else if ¬ resp.decodeOk then .error .tokenBodyDecodeFailed
          else
            let token := if resp.token ≠ [] then resp.token else resp.accessToken
            .ok (token, { token := token })
    | _ => .error .unsupportedAuthType

/-- An HTTP request issued to the registry, as far as the code
distinguishes requests: URL, `Authorization` header, `Accept` header. -/
structure Request where
  url : Str
  authorization : Option Str
  accept : Str
deriving DecidableEq

/-- The response to a tag-list page request, decoded: status,
`WWW-Authenticate` header, whether the JSON `tags` body decoded, the
decoded tags, and the `Link` header (`""` when absent). -/
structure PageResp where
  status : Nat
  wwwAuthenticate : Str
  decodeOk : Bool
  tags : List Str
  link : Str
deriving DecidableEq

/-- The response to a manifest request: status, `WWW-Authenticate`
header, the `Docker-Content-Digest` header (`""` when absent) and the
response body (which the digest path must never read). -/
structure ManifestResp where
  status : Nat
  wwwAuthenticate : Str
  dockerContentDigest : Str
  body : Str
deriving DecidableEq

/-- The `Authorization` header value `"Bearer " + token`. -/
def bearerAuthValue (token : Str) : Str := strOf "Bearer " ++ token

/-- The `Authorization` header attached to a first request: the cached
token if present (tag-finder.go:222-226 and 325-329). -/
def initialAuth (st : ClientState) : Option Str :=
  if st.token ≠ [] then some (bearerAuthValue st.token) else none

/-- A tag-list page request (no `Accept` header is set). -/
def tagsPageRequest (auth : Option Str) (url : Str) : Request :=
  { url := url, authorization := auth, accept := [] }

/-- The `Accept` header of manifest requests (tag-finder.go:317-322). -/
def acceptHeaderValue : Str :=
  strOf "application/vnd.docker.distribution.manifest.v2+json, application/vnd.docker.distribution.manifest.list.v2+json, application/vnd.oci.image.manifest.v1+json, application/vnd.oci.image.index.v1+json"

/-- A manifest request. -/
def manifestRequest (auth : Option Str) (url : Str) : Request :=
  { url := url, authorization := auth, accept := acceptHeaderValue }

/-- The base-URL extraction in `fetchTagsPage` (tag-finder.go:279-282):
the current URL truncated at the first `/v2/`. -/
def tagsBaseURL (url : Str) : Str :=
  match indexOfSub (strOf "/v2/") url with
  | some i => url.take i
  | none => url

/-- `fetchTagsPage`'s handling of a response that is past the 401 branch
(tag-finder.go:260-287): non-200 fails, decode failure fails, otherwise
the tags plus the next URL resolved from the `Link` header. -/
def finishTagsPage (url : Str) (resp : PageResp) : Except RegErr (List Str × Str) :=
  if resp.status ≠ 200 then .error (.registryReturnedStatus resp.status)
  else if ¬ resp.decodeOk then .error .tagsBodyDecodeFailed
  else
    let nextURL :=
      if resp.link ≠ [] then
        let nextPath := parseLinkHeader resp.link
        if nextPath ≠ [] then tagsBaseURL url ++ nextPath else []
      else []
    .ok (resp.tags, nextURL)

/-- `fetchTagsPage` (tag-finder.go:215-288).  `server n req` is the
registry's response to the `n`-th request of the run; the returned list
records the requests this call actually issued. -/
def fetchTagsPage (st : ClientState) (tokenWorld : Str → TokenResp)
    (server : Nat → Request → PageResp) (n : Nat) (url repository : Str) :
    Except RegErr (List Str × Str) × ClientState × List Request :=
  let req1 := tagsPageRequest (initialAuth st) url
  let resp1 := server n req1
  if resp1.status = 401 then
    if resp1.wwwAuthenticate = [] then (.error .noChallengeOn401, st, [req1])
    else
      match getBearerToken st tokenWorld resp1.wwwAuthenticate repository with
      | .error e => (.error (.authTokenFetchFailed e), st, [req1])
      | .ok (token, st2) =>
        let req2 := tagsPageRequest (some (bearerAuthValue token)) url
        let resp2 := server (n + 1) req2
        (finishTagsPage url resp2, st2, [req1, req2])
  else (finishTagsPage url resp1, st, [req1])

/-- The pagination loop of `fetchTagsList` (tag-finder.go:295-302),
bounded by fuel (the Go loop has no page ceiling).  Also threads the
request counter `n` and the accumulated tags. -/
def fetchTagsLoop (tokenWorld : Str → TokenResp) (server : Nat → Request → PageResp)
    (repository : Str) : Nat → ClientState → Nat → Str → List Str →
    Except RegErr (List Str) × ClientState × Nat
  | 0, st, n, _, _ => (.error .outOfFuel, st, n)
  | Nat.succ fuel, st, n, url, acc =>
    if url = [] then (.ok acc, st, n)
    else
      match fetchTagsPage st tokenWorld server n url repository with
      | (.error e, st2, reqs) => (.error e, st2, n + reqs.length)
      | (.ok (tags, nextURL), st2, reqs) =>
        fetchTagsLoop tokenWorld server repository fuel st2 (n + reqs.length) nextURL (acc ++ tags)

/-- `fetchTagsList` (tag-finder.go:291-305).  The final `Nat` is the
total number of page requests issued. -/
def fetchTagsList (fuel : Nat) (st : ClientState) (tokenWorld : Str → TokenResp)
    (server : Nat → Request → PageResp) (registryURL repository : Str) :
    Except RegErr (List Str) × ClientState × Nat :=
  fetchTagsLoop tokenWorld server repository fuel st 0
    (registryURL ++ strOf "/v2/" ++ repository ++ strOf "/tags/list?n=1000") []

/-- The manifest URL (tag-finder.go:309). -/
def manifestURL (registryURL repository tag : Str) : Str :=
  registryURL ++ strOf "/v2/" ++ repository ++ strOf "/manifests/" ++ tag

/-- `fetchManifestDigest`'s handling of a response past the 401 branch
(tag-finder.go:369-379): non-200 fails; the digest is read from the
`Docker-Content-Digest` header only, and its absence is an error. -/
def finishManifest (tag : Str) (resp : ManifestResp) : Except RegErr Str :=
  if resp.status ≠ 200 then .error (.registryReturnedStatusForTag resp.status tag)
  else if resp.dockerContentDigest = [] then .error (.noDigestHeaderForTag tag)
  else .ok resp.dockerContentDigest

/-- `fetchManifestDigest` (tag-finder.go:308-380).  `server` maps each
request to the registry's response; the returned list records the
requests issued. -/
def fetchManifestDigest (st : ClientState) (tokenWorld : Str → TokenResp)
    (server : Request → ManifestResp) (registryURL repository tag : Str) :
    Except RegErr Str × ClientState × List Request :=
  let url := manifestURL registryURL repository tag
  let req1 := manifestRequest (initialAuth st) url
  let resp1 := server req1
  if resp1.status = 401 then
    if resp1.wwwAuthenticate = [] then (.error .noChallengeOn401, st, [req1])
    else
      match getBearerToken st tokenWorld resp1.wwwAuthenticate repository with
      | .error e => (.error (.authTokenFetchFailed e), st, [req1])
      | .ok (token, st2) =>
        let req2 := manifestRequest (some (bearerAuthValue token)) url
        let resp2 := server req2
        (finishManifest tag resp2, st2, [req1, req2])
  else (finishManifest tag resp1, st, [req1])

/-- `TagInfo` (tag-finder.go:31-35): the per-tag result sent on the
result channel. -/
structure TagInfo where
  tag : Str
  digest : Str
  err : Option RegErr
deriving DecidableEq

/-- The body of the worker loop for one tag (tag-finder.go:419-420):
run the digest fetch and wrap its outcome in a `TagInfo` (on error the
digest is Go's zero value `""`). -/
def runTag (fetch : Str → Except RegErr Str) (tag : Str) : TagInfo :=
  match fetch tag with
  | .ok d => { tag := tag, digest := d, err := none }
  | .error e => { tag := tag, digest := [], err := some e }

/-- The digest fetch a worker performs for one tag: `fetchManifestDigest`
against a fixed observed client state and server. -/
def manifestFetcher (st : ClientState) (tokenWorld : Str → TokenResp)
    (server : Request → ManifestResp) (registryURL repository : Str)
    (tag : Str) : Except RegErr Str :=
  (fetchManifestDigest st tokenWorld server registryURL repository tag).1

/-- Observable events of `FetchDigests` (tag-finder.go:405-437): a result
sent on `resultsChan`, a worker goroutine returning, and the closing of
`resultsChan`. -/
inductive PoolEvent where
  | result (info : TagInfo)
  | workerExit
  | closeStream
deriving DecidableEq

/-- The event sequence of one worker that received the job list
`assigned` and never observed a cancellation: one result per job, in
order, then the worker exits (tag-finder.go:412-423). -/
def workerTrace (fetch : Str → Except RegErr Str) (assigned : List Str) :
    List PoolEvent :=
  assigned.map (fun t => PoolEvent.result (runTag fetch t)) ++ [PoolEvent.workerExit]

/-- `Merge ls out`: `out` is an interleaving of the lists in `ls`, each
kept in its own order — the possible global orders of events produced by
concurrently running workers. -/
inductive Merge : List (List PoolEvent) → List PoolEvent → Prop where
  | done (ls : List (List PoolEvent)) : (∀ l ∈ ls, l = []) → Merge ls []
  | step (ls : List (List PoolEvent)) (i : Nat) (e : PoolEvent)
      (rest : List PoolEvent) (out : List PoolEvent) :
      ls.get? i = some (e :: rest) → Merge (ls.set i rest) out → Merge ls (e :: out)

/-- The event traces `FetchDigests` (tag-finder.go:405-437) can produce
when no cancellation signal arrives: the jobs channel hands each of the
`tags` to exactly one of the `workers` workers in some distribution
(`parts.flatten` is a permutation of `tags`), the workers' event sequences
interleave arbitrarily, and the closing goroutine closes the channel
after `wg.Wait()`, i.e. after every worker's exit event. -/
def FetchDigestsTrace (workers : Nat) (fetch : Str → Except RegErr Str)
    (tags : List Str) (trace : List PoolEvent) : Prop :=
  ∃ (parts : List (List Str)) (pre : List PoolEvent),
    parts.length = workers ∧
    parts.flatten.Perm tags ∧
    Merge (parts.map (workerTrace fetch)) pre ∧
    trace = pre ++ [PoolEvent.closeStream]

/-- The tag carried by a result event (`none` for the other events). -/
def resultTag : PoolEvent → Option Str
  | .result info => some info.tag
  | _ => none

/-- The slice of the Bubble Tea `model` state that the `checkMsg` branch
of `model.Update` reads and writes (tag-finder.go:37-52). -/
structure UIModel where
  targetDigest : Str
  matchingTags : List Str
  current : Nat
  total : Nat
  done : Bool
deriving DecidableEq

/-- The `checkMsg` branch of `model.Update` (tag-finder.go:510-519):
count a match when the result has no error and its digest equals the
target, bump the processed counter, and finish when all tags are
counted. -/
def updateCheckMsg (m : UIModel) (tag digest : Str) (err : Option RegErr) : UIModel :=
  let m1 :=
    if err = none ∧ digest = m.targetDigest then
      { m with matchingTags := m.matchingTags ++ [tag] }
    else m
  let m2 := { m1 with current := m1.current + 1 }
  if m2.current ≥ m2.total then { m2 with done := true } else m2

/-- The outcome of the Bubble Tea program run in `main`: whether
`p.Run()` returned an error, and how many matching tags the final model
holds. -/
structure RunOutcome where
  runErr : Bool
  matchCount : Nat
deriving DecidableEq

/-- The exit code selection of `main` (tag-finder.go:582-622): 0 for
`-version`; 1 on missing arguments, on `workers < 1`, or when `p.Run()`
fails; otherwise `main` returns normally, so the process exits 0 — the
match count held by the final model is never consulted. -/
def mainExitCode (versionFlag : Bool) (workers : Int) (args : List Str)
    (outcome : RunOutcome) : Nat :=
  if versionFlag then 0
  else if args.length < 2 then 1
  else if workers < 1 then 1
  else if outcome.runErr then 1
  else 0

/-- The `docker://` scheme stripped by `main` (tag-finder.go:610). -/
def dockerScheme : Str := strOf "docker://"

/-- The image normalization in `main` (tag-finder.go:610). -/
def normalizeImageArg (image : Str) : Str := goTrimPre dockerScheme image

/-- The reference resolution an invocation of the CLI performs on its
image argument: `main`'s prefix stripping followed by
`parseImageReference`. -/
def resolveCLI (image : Str) : Str × Str × Option RegErr :=
  parseImageReference (normalizeImageArg image)

/-- The digest normalization in `main` (tag-finder.go:613-615). -/
def normalizeDigestArg (digest : Str) : Str :=
  if (strOf "sha256:").isPrefixOf digest then digest
  else strOf "sha256:" ++ digest

/-- A fetch outcome used in concrete pool traces: every tag resolves to
the same digest. -/
def c2FetchEx : Str → Except RegErr Str := fun _ => .ok (strOf "sha256:aaaa")

/-- A concrete two-tag job list. -/
def c2TagsEx : List Str := [strOf "tag1", strOf "tag2"]

/-- A concrete event trace of a two-worker pool over `c2TagsEx`. -/
def c2TraceEx : List PoolEvent :=
  [PoolEvent.result (runTag c2FetchEx (strOf "tag1")), PoolEvent.workerExit,
   PoolEvent.result (runTag c2FetchEx (strOf "tag2")), PoolEvent.workerExit,
   PoolEvent.closeStream]

/-- A token endpoint answering 200 with a JSON body that contains neither
a `token` nor an `access_token` field. -/
def c4TokenWorld : Str → TokenResp := fun _ =>
  { status := 200, decodeOk := true, token := [], accessToken := [] }

/-- A well-formed bearer challenge header. -/
def c4Header : Str :=
  strOf "Bearer realm=\"https://auth.example/token\",service=\"registry.example\""

/-- A bearer challenge header with realm, service and scope. -/
def c6Challenge : Str :=
  strOf "Bearer realm=\"https://auth.example/token\",service=\"reg\",scope=\"repository:test:pull\""

/-- A token endpoint that hands out the token `tok123`. -/
def c6TokenWorld : Str → TokenResp := fun _ =>
  { status := 200, decodeOk := true, token := strOf "tok123", accessToken := [] }

/-- A tag-list server: 401 with a challenge on the first request, 500 on
every later request. -/
def c6TagsServer : Nat → Request → PageResp := fun n _ =>
  if n = 0 then
    { status := 401, wwwAuthenticate := c6Challenge, decodeOk := true, tags := [], link := [] }
  else
    { status := 500, wwwAuthenticate := [], decodeOk := true, tags := [], link := [] }

/-- A manifest server: 503 once the request carries the token `tok123`,
401 with a challenge otherwise. -/
def c6ManifestServer : Request → ManifestResp := fun r =>
  if r.authorization = some (bearerAuthValue (strOf "tok123")) then
    { status := 503, wwwAuthenticate := [], dockerContentDigest := [], body := [] }
  else
    { status := 401, wwwAuthenticate := c6Challenge, dockerContentDigest := [], body := [] }

/-- Decimal rendering of a number, as a `Str`. -/
def natToStr (n : Nat) : Str := (Nat.repr n).data

/-- `count` distinct tag names `tag0`, `tag1`, ... (the shape of the
3-page pagination scenario). -/
def testTags (count : Nat) : List Str :=
  (List.range count).map (fun i => strOf "tag" ++ natToStr i)

/-- The 3-page mock registry: pages of 100, 100 and 50 tags, the first
two with a `rel="next"` Link header, the third without. -/
def c7Server : Nat → Request → PageResp
  | 0, _ =>
    { status := 200, wwwAuthenticate := [], decodeOk := true, tags := testTags 100,
      link := strOf "</v2/repo/tags/list?n=100&last=tag100>; rel=\"next\"" }
  | 1, _ =>
    { status := 200, wwwAuthenticate := [], decodeOk := true, tags := testTags 100,
      link := strOf "</v2/repo/tags/list?n=100&last=tag200>; rel=\"next\"" }
  | _, _ =>
    { status := 200, wwwAuthenticate := [], decodeOk := true, tags := testTags 50, link := [] }

/-- A token endpoint that is never consulted in the pagination scenario. -/
def c7TokenWorld : Str → TokenResp := fun _ =>
  { status := 404, decodeOk := false, token := [], accessToken := [] }

/-- A manifest server answering 200 with no `Docker-Content-Digest`
header. -/
def c9Server : Request → ManifestResp := fun _ =>
  { status := 200, wwwAuthenticate := [], dockerContentDigest := [], body := strOf "ignored" }

/-- Replace the body of a manifest response, leaving status and headers
unchanged. -/
def setBody (r : ManifestResp) (b : Str) : ManifestResp :=
  { r with body := b }

theorem goSplit_ne_nil (sep : Char) (s : Str) : goSplit sep s ≠ [] := by
  cases s with
  | nil => simp [goSplit]
  | cons c rest =>
    cases h : goSplit sep rest with
    | nil => simp [goSplit, h]
    | cons p ps => by_cases hc : c = sep <;> simp [goSplit, h, hc]

theorem goSplit_head_prefix (sep : Char) :
    ∀ (s p : Str) (ps : List Str), goSplit sep s = p :: ps → p <+: s := by
  intro s
  induction s with
  | nil =>
    intro p ps h
    simp only [goSplit] at h
    cases h
    exact List.nil_prefix
  | cons c rest ih =>
    intro p ps h
    cases hrec : goSplit sep rest with
    | nil => exact absurd hrec (goSplit_ne_nil sep rest)
    | cons q qs =>
      simp only [goSplit, hrec] at h
      by_cases hc : c = sep
      · rw [if_pos hc] at h
        cases h
        exact List.nil_prefix
      · rw [if_neg hc] at h
        injection h with h1 h2
        subst h1
        exact List.cons_prefix_cons.mpr ⟨rfl, ih q qs hrec⟩

theorem goSplit_mem_infix (sep : Char) :
    ∀ (s : Str), ∀ p ∈ goSplit sep s, p <:+: s := by
  intro s
  induction s with
  | nil =>
    intro p hp
    simp only [goSplit, List.mem_singleton] at hp
    simp [hp]
  | cons c rest ih =>
    intro p hp
    cases hrec : goSplit sep rest with
    | nil => exact absurd hrec (goSplit_ne_nil sep rest)
    | cons q qs =>
      simp only [goSplit, hrec] at hp
      by_cases hc : c = sep
      · rw [if_pos hc] at hp
        rcases List.mem_cons.mp hp with h | h
        · simp [h]
        · exact List.infix_cons (ih p (hrec ▸ h))
      · rw [if_neg hc] at hp
        rcases List.mem_cons.mp hp with h | h
        · subst h
          exact (List.cons_prefix_cons.mpr ⟨rfl, goSplit_head_prefix sep rest q qs hrec⟩).isInfix
        · exact List.infix_cons (ih p (hrec ▸ List.mem_cons_of_mem q h))

theorem isSubstr_iff (sub : Str) : ∀ s : Str, isSubstr sub s = true ↔ sub <:+: s := by
  intro s
  induction s with
  | nil => simp [isSubstr, List.isEmpty_iff, List.infix_nil]
  | cons c rest ih =>
    simp only [isSubstr, Bool.or_eq_true, List.isPrefixOf_iff_prefix, ih]
    constructor
    · rintro (h | h)
      · exact h.isInfix
      · exact List.infix_cons h
    · intro h
      rcases List.infix_cons_iff.mp h with h | h
      · exact Or.inl h
      · exact Or.inr h

theorem splitFirst_eq (sep : Char) :
    ∀ s a b : Str, splitFirst sep s = some (a, b) → s = a ++ sep :: b := by
  intro s
  induction s with
  | nil => intro a b h; simp [splitFirst] at h
  | cons c rest ih =>
    intro a b h
    simp only [splitFirst] at h
    by_cases hc : c = sep
    · rw [if_pos hc] at h
      cases h
      simp [hc]
    · rw [if_neg hc] at h
      cases hrec : splitFirst sep rest with
      | none => rw [hrec] at h; cases h
      | some ab =>
        obtain ⟨a2, b2⟩ := ab
        rw [hrec] at h
        injection h with h2
        injection h2 with hA hB
        subst hA
        subst hB
        simp [ih a2 b2 hrec]

theorem findRelNext_eq_false :
    ∀ l : List Str, (∀ p ∈ l, isSubstr relNextToken p = false) → findRelNext l = false := by
  intro l
  induction l with
  | nil => intro _; rfl
  | cons p ps ih =>
    intro h
    simp only [findRelNext, h p (List.mem_cons_self p ps)]
    exact ih fun q hq => h q (List.mem_cons_of_mem p hq)

theorem flatten_set_perm (ls : List (List PoolEvent)) :
    ∀ (i : Nat) (e : PoolEvent) (rest : List PoolEvent),
      ls.get? i = some (e :: rest) → ls.flatten.Perm (e :: (ls.set i rest).flatten) := by
  induction ls with
  | nil => intro i e rest h; simp at h
  | cons x xs ih =>
    intro i e rest h
    cases i with
    | zero =>
      simp only [List.get?_cons_zero, Option.some_inj] at h
      subst h
      simp [List.flatten_cons]
    | succ i =>
      simp only [List.get?_cons_succ] at h
      have hp := (ih i e rest h).append_left x
      simp only [List.flatten_cons, List.set_cons_succ]
      exact hp.trans List.perm_middle

theorem merge_perm {ls : List (List PoolEvent)} {out : List PoolEvent}
    (h : Merge ls out) : out.Perm ls.flatten := by
  induction h with
  | done ls h => simp [List.flatten_eq_nil_iff.mpr h]
  | step ls i e rest out hget _ ih =>
    exact (ih.cons e).trans (flatten_set_perm ls i e rest hget).symm

theorem runTag_tag (fetch : Str → Except RegErr Str) (t : Str) :
    (runTag fetch t).tag = t := by
  unfold runTag
  cases fetch t <;> rfl

theorem workerTrace_filterMap (fetch : Str → Except RegErr Str) :
    ∀ part : List Str, (workerTrace fetch part).filterMap resultTag = part := by
  intro part
  induction part with
  | nil => rfl
  | cons t ts ih =>
    have h : workerTrace fetch (t :: ts)
        = PoolEvent.result (runTag fetch t) :: workerTrace fetch ts := by
      simp [workerTrace]
    rw [h, List.filterMap_cons]
    simp [resultTag, runTag_tag, ih]

theorem workerTrace_count_exit (fetch : Str → Except RegErr Str) (part : List Str) :
    (workerTrace fetch part).count PoolEvent.workerExit = 1 := by
  simp only [workerTrace, List.count_append]
  have h0 : (part.map fun t => PoolEvent.result (runTag fetch t)).count PoolEvent.workerExit = 0 := by
    rw [List.count_eq_zero]
    simp [List.mem_map]
  simp [h0]

theorem closeStream_not_mem_workerTrace (fetch : Str → Except RegErr Str) (part : List Str) :
    PoolEvent.closeStream ∉ workerTrace fetch part := by
  simp [workerTrace, List.mem_append, List.mem_map]

theorem flatten_workerTraces_filterMap (fetch : Str → Except RegErr Str) :
    ∀ parts : List (List Str),
      ((parts.map (workerTrace fetch)).flatten.filterMap resultTag) = parts.flatten := by
  intro parts
  induction parts with
  | nil => rfl
  | cons p ps ih =>
    simp only [List.map_cons, List.flatten_cons, List.filterMap_append,
      workerTrace_filterMap, ih]

theorem flatten_workerTraces_count_exit (fetch : Str → Except RegErr Str) :
    ∀ parts : List (List Str),
      ((parts.map (workerTrace fetch)).flatten.count PoolEvent.workerExit) = parts.length := by
  intro parts
  induction parts with
  | nil => rfl
  | cons p ps ih =>
    simp [List.count_append, workerTrace_count_exit, ih, Nat.add_comm]

/-- C2: for every finite list of input tags and every trace `FetchDigests`
can produce without a cancellation signal, the result events carry
exactly one `TagInfo` per input tag (no tag missing, no tag duplicated —
their tags are a permutation of the input list), and the stream-close
event comes last, strictly after the exit events of all `workers`
workers. -/
theorem fetchDigests_one_result_per_tag_close_last
    (workers : Nat) (fetch : Str → Except RegErr Str) (tags : List Str)
    (trace : List PoolEvent) (h : FetchDigestsTrace workers fetch tags trace) :
    ((trace.filterMap resultTag).Perm tags) ∧
    ∃ pre, trace = pre ++ [PoolEvent.closeStream] ∧
      PoolEvent.closeStream ∉ pre ∧
      pre.count PoolEvent.workerExit = workers := by
  obtain ⟨parts, pre, hlen, hperm, hmerge, htrace⟩ := h
  have hpre : pre.Perm (parts.map (workerTrace fetch)).flatten := merge_perm hmerge
  refine ⟨?_, pre, htrace, ?_, ?_⟩
  · have h2 := hpre.filterMap resultTag
    rw [flatten_workerTraces_filterMap] at h2
    have h4 : List.filterMap resultTag [PoolEvent.closeStream] = [] := rfl
    rw [htrace, List.filterMap_append, h4, List.append_nil]
    exact h2.trans hperm
  · intro hmem
    have h5 := hpre.mem_iff.mp hmem
    rw [List.mem_flatten] at h5
    obtain ⟨l, hl, hcl⟩ := h5
    rw [List.mem_map] at hl
    obtain ⟨part, _, rfl⟩ := hl
    exact closeStream_not_mem_workerTrace fetch part hcl
  · rw [hpre.count_eq, flatten_workerTraces_count_exit, hlen]

/-- Witness for C2: a concrete two-worker run over two tags. -/
theorem fetchDigests_one_result_per_tag_close_last_witness :
    ((c2TraceEx.filterMap resultTag).Perm c2TagsEx) ∧
    ∃ pre, c2TraceEx = pre ++ [PoolEvent.closeStream] ∧
      PoolEvent.closeStream ∉ pre ∧
      pre.count PoolEvent.workerExit = 2 := by
  apply fetchDigests_one_result_per_tag_close_last 2 c2FetchEx c2TagsEx c2TraceEx
  refine ⟨[[strOf "tag1"], [strOf "tag2"]],
    [PoolEvent.result (runTag c2FetchEx (strOf "tag1")), PoolEvent.workerExit,
     PoolEvent.result (runTag c2FetchEx (strOf "tag2")), PoolEvent.workerExit],
    rfl, List.Perm.refl _, ?_, rfl⟩
  refine Merge.step _ 0 (PoolEvent.result (runTag c2FetchEx (strOf "tag1")))
    [PoolEvent.workerExit] _ (by decide) ?_
  refine Merge.step _ 0 PoolEvent.workerExit [] _ (by decide) ?_
  refine Merge.step _ 1 (PoolEvent.result (runTag c2FetchEx (strOf "tag2")))
    [PoolEvent.workerExit] _ (by decide) ?_
  refine Merge.step _ 1 PoolEvent.workerExit [] _ (by decide) ?_
  exact Merge.done _ (by simp)

/-- C5: `parseImageReference` never reports an error — the error
component of its result is `none` for every input, so the
`InvalidReference` branch of callers is unreachable. -/
theorem parseImageReference_err_none (image : Str) :
    (parseImageReference image).2.2 = none := by
  unfold parseImageReference
  cases splitFirst '/' image with
  | none => rfl
  | some p =>
    obtain ⟨registry, repo⟩ := p
    dsimp only
    split
    · rfl
    · split
      · rfl
      · split <;> rfl

/-- C7: against the 3-page mock registry (pages of 100, 100 and 50 tags,
the first two with a `rel="next"` Link header), `fetchTagsList` returns
the 250 tags in page order, with each page's tags appended in sequence,
and issues exactly 3 page requests. -/
theorem fetchTagsList_three_pages :
    fetchTagsList 10 { token := [] } c7TokenWorld c7Server
        (strOf "https://registry.example") (strOf "repo")
      = (.ok (testTags 100 ++ testTags 100 ++ testTags 50), { token := [] }, 3) ∧
    (testTags 100 ++ testTags 100 ++ testTags 50).length = 250 :=
  ⟨rfl, rfl⟩

/-- C8: `parseLinkHeader` extracts the bracketed path from
`</v2/repo/tags/list?n=100&last=tag99>; rel="next"`, and any header that
does not contain the token `rel="next"` yields the empty string. -/
theorem parseLinkHeader_next_and_empty :
    parseLinkHeader (strOf "</v2/repo/tags/list?n=100&last=tag99>; rel=\"next\"")
        = strOf "/v2/repo/tags/list?n=100&last=tag99" ∧
    ∀ header : Str, ¬ (relNextToken <:+: header) → parseLinkHeader header = [] := by
  constructor
  · decide
  · intro header hno
    unfold parseLinkHeader
    cases hsplit : goSplit ';' header with
    | nil => rfl
    | cons p0 ps =>
      cases ps with
      | nil => rfl
      | cons p1 rest =>
        have hparts : ∀ p ∈ p1 :: rest, isSubstr relNextToken p = false := by
          intro p hp
          have hpin : p ∈ goSplit ';' header := by
            rw [hsplit]
            exact List.mem_cons_of_mem p0 hp
          have hinf := goSplit_mem_infix ';' header p hpin
          rw [← Bool.not_eq_true, isSubstr_iff]
          intro hcon
          exact hno (hcon.trans hinf)
        have hfind := findRelNext_eq_false (p1 :: rest) hparts
        simp [hfind]

/-- Witness for C8: a header whose only relation is `rel="prev"` yields
the empty string. -/
theorem parseLinkHeader_next_and_empty_witness :
    parseLinkHeader (strOf "</v2/repo/tags/list?page=2>; rel=\"prev\"") = [] :=
  parseLinkHeader_next_and_empty.2
    (strOf "</v2/repo/tags/list?page=2>; rel=\"prev\"") (by decide)

/-- C1 (the code side of the bug): a run that completes with zero
matching tags.  The `checkMsg` branch of `model.Update` records no match
for a non-matching digest and marks the scan done, yet `main` — having
parsed two positional arguments and a valid worker count, with `p.Run()`
succeeding — exits 0, not 1: the exit code never depends on the match
count.  The README's documented contract ("exit code 0 if matches
found, 1 if no matches or error") is not implemented. -/
theorem mainExitCode_ignores_matches :
    (updateCheckMsg
        { targetDigest := strOf "sha256:abc", matchingTags := [], current := 0,
          total := 1, done := false }
        (strOf "v1") (strOf "sha256:other") none).matchingTags = [] ∧
    (updateCheckMsg
        { targetDigest := strOf "sha256:abc", matchingTags := [], current := 0,
          total := 1, done := false }
        (strOf "v1") (strOf "sha256:other") none).done = true ∧
    mainExitCode false 10 [strOf "nginx", strOf "sha256:abc"]
        { runErr := false, matchCount := 0 } = 0 := by
  refine ⟨by decide, by decide, rfl⟩

theorem repoOf_splitNone (image : Str) (h : splitFirst '/' image = none) :
    repoOf image = strOf "library/" ++ image := by
  unfold repoOf parseImageReference
  rw [h]

theorem repoOf_splitSome (image registry repo : Str)
    (h : splitFirst '/' image = some (registry, repo)) :
    repoOf image = repo ∨ repoOf image = strOf "library/" ++ repo := by
  unfold repoOf parseImageReference
  rw [h]
  dsimp only
  split
  · split
    · exact Or.inl rfl
    · exact Or.inr rfl
  · split
    · exact Or.inl rfl
    · split
      · exact Or.inl rfl
      · exact Or.inl rfl

/-- C3 counterexample: the repository invariant does not hold for every
input.  On `""` the repository is `library/` (trailing slash), on
`foo/` it is empty, and on `ghcr.io//a` it starts with a slash. -/
theorem parseImageReference_repo_invariant_cex :
    repoOf (strOf "") = strOf "library/" ∧
    repoOf (strOf "foo/") = [] ∧
    (repoOf (strOf "ghcr.io//a")).head? = some '/' := by
  refine ⟨by decide, by decide, by decide⟩

/-- C3 (amended): for every input image that is non-empty, does not end
with a slash and does not contain two consecutive slashes, the
repository produced by `parseImageReference` is non-empty and has no
leading and no trailing slash. -/
theorem parseImageReference_repo_invariant (image : Str) (h1 : image ≠ [])
    (h2 : image.getLast? ≠ some '/') (h3 : ¬ ((strOf "//") <:+: image)) :
    repoOf image ≠ [] ∧ (repoOf image).head? ≠ some '/' ∧
    (repoOf image).getLast? ≠ some '/' := by
  cases hsp : splitFirst '/' image with
  | none =>
    rw [repoOf_splitNone image hsp]
    have hshow : strOf "library/" ++ image = 'l' :: (strOf "ibrary/" ++ image) := rfl
    refine ⟨by rw [hshow]; exact List.cons_ne_nil _ _,
      by rw [hshow]; simp only [List.head?_cons, ne_eq, Option.some.injEq]; decide, ?_⟩
    rw [List.getLast?_append_of_ne_nil (strOf "library/") h1]
    exact h2
  | some p =>
    obtain ⟨registry, repo⟩ := p
    have heq := splitFirst_eq '/' image registry repo hsp
    have hrne : repo ≠ [] := by
      intro hcon
      subst hcon
      rw [heq] at h2
      exact h2 (List.getLast?_concat registry)
    have hrh : repo.head? ≠ some '/' := by
      intro hcon
      cases repo with
      | nil => simp at hcon
      | cons c r2 =>
        simp only [List.head?_cons, Option.some_inj] at hcon
        subst hcon
        apply h3
        rw [heq]
        exact ⟨registry, r2,
          by show registry ++ ('/' :: '/' :: []) ++ r2 = registry ++ '/' :: '/' :: r2; simp⟩
    have hrl : repo.getLast? ≠ some '/' := by
      intro hcon
      apply h2
      rw [heq]
      have hassoc : registry ++ '/' :: repo = (registry ++ ['/']) ++ repo := by simp
      rw [hassoc, List.getLast?_append_of_ne_nil _ hrne]
      exact hcon
    rcases repoOf_splitSome image registry repo hsp with hre | hre <;> rw [hre]
    · exact ⟨hrne, hrh, hrl⟩
    · have hshow : strOf "library/" ++ repo = 'l' :: (strOf "ibrary/" ++ repo) := rfl
      refine ⟨by rw [hshow]; exact List.cons_ne_nil _ _,
      by rw [hshow]; simp only [List.head?_cons, ne_eq, Option.some.injEq]; decide, ?_⟩
      rw [List.getLast?_append_of_ne_nil _ hrne]
      exact hrl

/-- Witness for C3: the invariant holds on `ghcr.io/owner/repo`. -/
theorem parseImageReference_repo_invariant_witness :
    repoOf (strOf "ghcr.io/owner/repo") ≠ [] ∧
    (repoOf (strOf "ghcr.io/owner/repo")).head? ≠ some '/' ∧
    (repoOf (strOf "ghcr.io/owner/repo")).getLast? ≠ some '/' :=
  parseImageReference_repo_invariant (strOf "ghcr.io/owner/repo")
    (by decide) (by decide) (by decide)

theorem goTrimPre_append (pre s : Str) : goTrimPre pre (pre ++ s) = s := by
  unfold goTrimPre
  rw [if_pos (List.isPrefixOf_iff_prefix.mpr (List.prefix_append pre s))]
  exact List.drop_left pre s

theorem goTrimPre_of_not (pre s : Str) (h : pre.isPrefixOf s = false) :
    goTrimPre pre s = s := by
  unfold goTrimPre
  rw [if_neg]
  simp [h]

/-- C10 counterexample: when the image argument itself begins with
`docker://`, prepending another `docker://` does not resolve to the same
reference — `main` strips only one copy, so the claim's universal
quantification fails. -/
theorem dockerPrefix_strip_cex :
    resolveCLI (dockerScheme ++ strOf "docker://nginx")
      ≠ resolveCLI (strOf "docker://nginx") := by decide

/-- C10 (amended): for every image string that does not itself begin
with `docker://`, prepending `docker://` resolves to the same reference
(`main` strips the single prefix before `parseImageReference` runs);
and the resolver alone, without that stripping, treats `docker:` as a
generic registry host. -/
theorem dockerPrefix_strip :
    (∀ s : Str, dockerScheme.isPrefixOf s = false →
        resolveCLI (dockerScheme ++ s) = resolveCLI s) ∧
    parseImageReference (strOf "docker://nginx")
      = (strOf "https://docker:", strOf "/nginx", none) := by
  constructor
  · intro s hs
    unfold resolveCLI normalizeImageArg
    rw [goTrimPre_append, goTrimPre_of_not dockerScheme s hs]
  · decide

/-- Witness for C10: `docker://nginx` and `nginx` resolve identically. -/
theorem dockerPrefix_strip_witness :
    resolveCLI (dockerScheme ++ strOf "nginx") = resolveCLI (strOf "nginx") :=
  dockerPrefix_strip.1 (strOf "nginx") (by decide)

/-- C4 counterexample: with the token cache empty, a well-formed bearer
challenge, and a token endpoint answering 200 with a JSON body that has
neither a `token` nor an `access_token` field, `getBearerToken` succeeds
with the empty token (and caches it) — it does not fail. -/
theorem getBearerToken_empty_fields_cex :
    getBearerToken { token := [] } c4TokenWorld c4Header (strOf "library/nginx")
      = .ok ([], { token := [] }) := rfl

/-- C4 (amended): when the token endpoint responds with status 200 and a
JSON body containing neither field, `getBearerToken` succeeds, returning
(and caching) the empty string as the token, rather than failing with a
token-request error. -/
theorem getBearerToken_empty_fields
    (tokenWorld : Str → TokenResp) (authHeader repository p1 : Str)
    (rest : List Str) (realm : Str)
    (hsplit : goSplit ' ' authHeader = strOf "Bearer" :: p1 :: rest)
    (hrealm : lookupLast (strOf "realm") (authParams p1) = some realm)
    (hworld : ∀ u : Str, tokenWorld u
        = { status := 200, decodeOk := true, token := [], accessToken := [] }) :
    getBearerToken { token := [] } tokenWorld authHeader repository
      = .ok ([], { token := [] }) := by
  unfold getBearerToken
  simp only [hsplit, hrealm]
  cases hs : lookupLast (strOf "service") (authParams p1) <;>
    cases hsc : lookupLast (strOf "scope") (authParams p1) <;>
      simp [hworld]

/-- Witness for C4: the amended statement at the concrete challenge
header and token endpoint of the counterexample. -/
theorem getBearerToken_empty_fields_witness :
    getBearerToken { token := [] } c4TokenWorld c4Header (strOf "library/nginx")
      = .ok ([], { token := [] }) :=
  getBearerToken_empty_fields c4TokenWorld c4Header (strOf "library/nginx")
    (strOf "realm=\"https://auth.example/token\",service=\"registry.example\"") []
    (strOf "https://auth.example/token") (by decide) (by decide) (fun _ => rfl)

/-- C6: on a 401 first response carrying a challenge header (and a
successful auth flow), both the tag-list page fetch and the manifest
fetch issue exactly two registry requests — the original and one retry
with the new bearer token — and a non-200 status on that retry surfaces
as an error with no further request. -/
theorem retry_exactly_once_on_401 :
    (∀ (st : ClientState) (tokenWorld : Str → TokenResp)
        (server : Nat → Request → PageResp) (n : Nat) (url repository : Str)
        (token : Str) (st2 : ClientState),
      (server n (tagsPageRequest (initialAuth st) url)).status = 401 →
      (server n (tagsPageRequest (initialAuth st) url)).wwwAuthenticate ≠ [] →
      getBearerToken st tokenWorld
          (server n (tagsPageRequest (initialAuth st) url)).wwwAuthenticate repository
        = .ok (token, st2) →
      (fetchTagsPage st tokenWorld server n url repository).2.2
          = [tagsPageRequest (initialAuth st) url,
             tagsPageRequest (some (bearerAuthValue token)) url] ∧
      ((server (n + 1) (tagsPageRequest (some (bearerAuthValue token)) url)).status ≠ 200 →
        (fetchTagsPage st tokenWorld server n url repository).1
          = .error (.registryReturnedStatus
              (server (n + 1) (tagsPageRequest (some (bearerAuthValue token)) url)).status))) ∧
    (∀ (st : ClientState) (tokenWorld : Str → TokenResp)
        (server : Request → ManifestResp) (registryURL repository tag : Str)
        (token : Str) (st2 : ClientState),
      (server (manifestRequest (initialAuth st) (manifestURL registryURL repository tag))).status = 401 →
      (server (manifestRequest (initialAuth st) (manifestURL registryURL repository tag))).wwwAuthenticate ≠ [] →
      getBearerToken st tokenWorld
          (server (manifestRequest (initialAuth st)
            (manifestURL registryURL repository tag))).wwwAuthenticate repository
        = .ok (token, st2) →
      (fetchManifestDigest st tokenWorld server registryURL repository tag).2.2
          = [manifestRequest (initialAuth st) (manifestURL registryURL repository tag),
             manifestRequest (some (bearerAuthValue token)) (manifestURL registryURL repository tag)] ∧
      ((server (manifestRequest (some (bearerAuthValue token))
            (manifestURL registryURL repository tag))).status ≠ 200 →
        (fetchManifestDigest st tokenWorld server registryURL repository tag).1
          = .error (.registryReturnedStatusForTag
              (server (manifestRequest (some (bearerAuthValue token))
                (manifestURL registryURL repository tag))).status tag))) := by
  constructor
  · intro st tokenWorld server n url repository token st2 h401 hch hok
    have hmain : fetchTagsPage st tokenWorld server n url repository
        = (finishTagsPage url
             (server (n + 1) (tagsPageRequest (some (bearerAuthValue token)) url)),
           st2,
           [tagsPageRequest (initialAuth st) url,
            tagsPageRequest (some (bearerAuthValue token)) url]) := by
      unfold fetchTagsPage
      simp [h401, hch, hok]
    rw [hmain]
    refine ⟨rfl, fun hst => ?_⟩
    simp [finishTagsPage, hst]
  · intro st tokenWorld server registryURL repository tag token st2 h401 hch hok
    have hmain : fetchManifestDigest st tokenWorld server registryURL repository tag
        = (finishManifest tag
             (server (manifestRequest (some (bearerAuthValue token))
               (manifestURL registryURL repository tag))),
           st2,
           [manifestRequest (initialAuth st) (manifestURL registryURL repository tag),
            manifestRequest (some (bearerAuthValue token))
              (manifestURL registryURL repository tag)]) := by
      unfold fetchManifestDigest
      simp [h401, hch, hok]
    rw [hmain]
    refine ⟨rfl, fun hst => ?_⟩
    simp [finishManifest, hst]

/-- Witness for C6: the concrete 401-then-non-200 servers.  The page
fetch issues exactly the original and the retry request and reports the
retry's 500; the manifest fetch does the same with its 503. -/
theorem retry_exactly_once_on_401_witness :
    ((fetchTagsPage { token := [] } c6TokenWorld c6TagsServer 0
        (strOf "http://reg.example/v2/test/tags/list?n=1000") (strOf "test")).2.2
      = [tagsPageRequest (initialAuth { token := [] })
           (strOf "http://reg.example/v2/test/tags/list?n=1000"),
         tagsPageRequest (some (bearerAuthValue (strOf "tok123")))
           (strOf "http://reg.example/v2/test/tags/list?n=1000")] ∧
     ((c6TagsServer 1 (tagsPageRequest (some (bearerAuthValue (strOf "tok123")))
          (strOf "http://reg.example/v2/test/tags/list?n=1000"))).status ≠ 200 →
       (fetchTagsPage { token := [] } c6TokenWorld c6TagsServer 0
          (strOf "http://reg.example/v2/test/tags/list?n=1000") (strOf "test")).1
         = .error (.registryReturnedStatus
             (c6TagsServer 1 (tagsPageRequest (some (bearerAuthValue (strOf "tok123")))
               (strOf "http://reg.example/v2/test/tags/list?n=1000"))).status))) ∧
    ((fetchManifestDigest { token := [] } c6TokenWorld c6ManifestServer
        (strOf "http://reg.example") (strOf "test") (strOf "v1")).2.2
      = [manifestRequest (initialAuth { token := [] })
           (manifestURL (strOf "http://reg.example") (strOf "test") (strOf "v1")),
         manifestRequest (some (bearerAuthValue (strOf "tok123")))
           (manifestURL (strOf "http://reg.example") (strOf "test") (strOf "v1"))] ∧
     ((c6ManifestServer (manifestRequest (some (bearerAuthValue (strOf "tok123")))
          (manifestURL (strOf "http://reg.example") (strOf "test") (strOf "v1")))).status ≠ 200 →
       (fetchManifestDigest { token := [] } c6TokenWorld c6ManifestServer
          (strOf "http://reg.example") (strOf "test") (strOf "v1")).1
         = .error (.registryReturnedStatusForTag
             (c6ManifestServer (manifestRequest (some (bearerAuthValue (strOf "tok123")))
               (manifestURL (strOf "http://reg.example") (strOf "test") (strOf "v1")))).status
             (strOf "v1")))) :=
  ⟨retry_exactly_once_on_401.1 { token := [] } c6TokenWorld c6TagsServer 0
      (strOf "http://reg.example/v2/test/tags/list?n=1000") (strOf "test")
      (strOf "tok123") { token := strOf "tok123" } (by decide) (by decide) (by rfl),
   retry_exactly_once_on_401.2 { token := [] } c6TokenWorld c6ManifestServer
      (strOf "http://reg.example") (strOf "test") (strOf "v1")
      (strOf "tok123") { token := strOf "tok123" } (by decide) (by decide) (by rfl)⟩

/-- C9: a manifest response with status 200 but no content-digest header
yields the missing-digest error for that tag (first conjunct); the
digest path never reads the response body — replacing every response's
body changes nothing (second conjunct); and in every pool trace each
tag's emitted result is exactly `runTag fetch` of that tag, so the
result of every other tag is unaffected (third conjunct). -/
theorem missing_digest_header_per_tag :
    (∀ (st : ClientState) (tokenWorld : Str → TokenResp)
        (server : Request → ManifestResp) (registryURL repository tag : Str),
      (server (manifestRequest (initialAuth st)
          (manifestURL registryURL repository tag))).status = 200 →
      (server (manifestRequest (initialAuth st)
          (manifestURL registryURL repository tag))).dockerContentDigest = [] →
      (fetchManifestDigest st tokenWorld server registryURL repository tag).1
        = .error (.noDigestHeaderForTag tag)) ∧
    (∀ (st : ClientState) (tokenWorld : Str → TokenResp)
        (server : Request → ManifestResp) (bodies : Request → Str)
        (registryURL repository tag : Str),
      fetchManifestDigest st tokenWorld (fun r => setBody (server r) (bodies r))
          registryURL repository tag
        = fetchManifestDigest st tokenWorld server registryURL repository tag) ∧
    (∀ (workers : Nat) (fetch : Str → Except RegErr Str) (tags : List Str)
        (trace : List PoolEvent) (info : TagInfo),
      FetchDigestsTrace workers fetch tags trace →
      PoolEvent.result info ∈ trace → info = runTag fetch info.tag) := by
  refine ⟨?_, ?_, ?_⟩
  · intro st tokenWorld server registryURL repository tag h200 hdg
    unfold fetchManifestDigest
    simp [h200, hdg, finishManifest]
  · intro st tokenWorld server bodies registryURL repository tag
    rfl
  · intro workers fetch tags trace info htr hmem
    obtain ⟨parts, pre, _, _, hmerge, htrace⟩ := htr
    rw [htrace] at hmem
    rcases List.mem_append.mp hmem with hmem | hmem
    · have h5 := (merge_perm hmerge).mem_iff.mp hmem
      rw [List.mem_flatten] at h5
      obtain ⟨l, hl, hel⟩ := h5
      rw [List.mem_map] at hl
      obtain ⟨part, _, rfl⟩ := hl
      simp only [workerTrace, List.mem_append, List.mem_map,
        List.mem_singleton] at hel
      rcases hel with ⟨t, _, ht⟩ | hel
      · have ht2 : runTag fetch t = info := by
          injection ht
        rw [← ht2, runTag_tag]
      · cases hel
    · simp at hmem

/-- Witness for C9: the missing-header server yields the per-tag error,
a body change is invisible, and a concrete trace's first result equals
its own tag's fetch. -/
theorem missing_digest_header_per_tag_witness :
    (fetchManifestDigest { token := [] } c7TokenWorld c9Server
        (strOf "https://reg.example") (strOf "repo") (strOf "latest")).1
      = .error (.noDigestHeaderForTag (strOf "latest")) ∧
    fetchManifestDigest { token := [] } c7TokenWorld
        (fun r => setBody (c9Server r) (strOf "changed"))
        (strOf "https://reg.example") (strOf "repo") (strOf "latest")
      = fetchManifestDigest { token := [] } c7TokenWorld c9Server
        (strOf "https://reg.example") (strOf "repo") (strOf "latest") ∧
    runTag c2FetchEx (strOf "tag1")
      = runTag c2FetchEx (runTag c2FetchEx (strOf "tag1")).tag := by
  refine ⟨?_, ?_, ?_⟩
  · exact missing_digest_header_per_tag.1 { token := [] } c7TokenWorld c9Server
      (strOf "https://reg.example") (strOf "repo") (strOf "latest") (by decide) (by decide)
  · exact missing_digest_header_per_tag.2.1 { token := [] } c7TokenWorld c9Server
      (fun _ => strOf "changed") (strOf "https://reg.example") (strOf "repo") (strOf "latest")
  · apply missing_digest_header_per_tag.2.2 2 c2FetchEx c2TagsEx c2TraceEx
    · refine ⟨[[strOf "tag1"], [strOf "tag2"]],
        [PoolEvent.result (runTag c2FetchEx (strOf "tag1")), PoolEvent.workerExit,
         PoolEvent.result (runTag c2FetchEx (strOf "tag2")), PoolEvent.workerExit],
        rfl, List.Perm.refl _, ?_, rfl⟩
      refine Merge.step _ 0 (PoolEvent.result (runTag c2FetchEx (strOf "tag1")))
        [PoolEvent.workerExit] _ (by decide) ?_
      refine Merge.step _ 0 PoolEvent.workerExit [] _ (by decide) ?_
      refine Merge.step _ 1 (PoolEvent.result (runTag c2FetchEx (strOf "tag2")))
        [PoolEvent.workerExit] _ (by decide) ?_
      refine Merge.step _ 1 PoolEvent.workerExit [] _ (by decide) ?_
      exact Merge.done _ (by simp)
    · decide
